import Mathlib

/-!
Verification of the dash-proxy manifest-resolution engine (`dashproxy.py`).

The development shallowly embeds the parts of the program the claims touch:
the SegmentTimeline expansion and start-time assignment performed by
`DashDownloader.handle_mpd`, the implicit-timeline synthesis, the period
start computation of `MpdLocator.period_start`, the restricted ISO-8601
duration parser `ISO8601DurationSeconds`, the dispatch logic of
`DashProxy.handle_mpd`, the retry loop of `DashProxy.refresh_mpd`, the
template renderer and per-segment download driver, and the
downloader-registry check-then-insert of `DashProxy.ensure_downloader`.

Machine integers are embedded as `Int`/`Nat` (Python integers are
unbounded), Python floats carrying manifest clock arithmetic as `ℚ`, and
raised exceptions as `Except` errors.
-/

/-- Python exceptions raised (or raisable) by the embedded code paths. -/
inductive PyError where
  /-- `RuntimeError(f'Invalid duration: ...')` raised by `ISO8601DurationSeconds`. -/
  | runtimeError (msg : String)
  /-- `TypeError`: calling `RepAddr(period_idx - 1)` with one positional argument
      (the constructor requires three), `dashproxy.py` line 129. -/
  | typeError
  /-- `IndexError`: list subscript out of range. -/
  | indexError
  /-- `KeyError`/`IndexError` raised by `str.format` when a substitution
      argument named by the template is missing from `args`. -/
  | keyError
  deriving Repr, DecidableEq

/-! ## SegmentTimeline resolution (`DashDownloader.handle_mpd`, lines 320-371)

An `<S>` element of a SegmentTimeline carries the parsed attributes the code
reads: `t` (optional start in ticks), `d` (duration, `int(get('d','0'))`),
`r` (repeat count, `int(get('r','0'))`). -/

/-- One `<S>` entry of a SegmentTimeline, with the attributes read by the code. -/
structure SEntry where
  t : Option Int
  d : Int
  r : Int
  deriving Repr, DecidableEq

/-- One fully expanded segment: the assigned start time (the `t` attribute the
code writes back) and the duration, both in ticks. -/
structure SegDesc where
  start : Int
  dur : Int
  deriving Repr, DecidableEq

/-- Python's `list.insert` (to which `xml.etree` `Element.insert` delegates)
CLAMPS an out-of-range position to the end of the list; Lean's
`List.insertIdx` instead drops such an insertion, hence the explicit `min`. -/
def pyInsertIdx (tl : List SEntry) (idx : Nat) (a : SEntry) : List SEntry :=
  tl.insertIdx (min idx tl.length) a

/-- The inner `for _ in range(0, repeat)` loop of lines 353-357: insert `n`
fresh `<S d="duration">` elements (no `t`, no `r`) into the timeline at
position `idx`, advancing `idx` after each insertion. -/
def insertRepeats (tl : List SEntry) (idx : Nat) (d : Int) : Nat → List SEntry × Nat
  | 0 => (tl, idx)
  | n + 1 => insertRepeats (pyInsertIdx tl idx ⟨none, d, 0⟩) (idx + 1) d n

/-- The outer `for segment in segments` loop of lines 348-357: walk the
iterated entries, bumping `idx` past each one and materializing its `r`
repeats in place inside the timeline element (first argument).  In the
explicit branch the timeline element initially holds exactly the iterated
entries; in the implicit branch (line 344) it is initially EMPTY while the
iterated list holds the synthesized anchor, so the inserts clamp to the end.
Python's `range(0, repeat)` is empty for a negative repeat, hence `.toNat`. -/
def expandLoop : List SEntry → Nat → List SEntry → List SEntry
  | tl, _, [] => tl
  | tl, idx, seg :: rest =>
    let p := insertRepeats tl (idx + 1) seg.d seg.r.toNat
    expandLoop p.1 p.2 rest

/-- Lines 346-357 as a whole: the timeline element initially holds exactly the
original `<S>` children, `idx` starts at 0, and iteration is over a deep copy
of those same children. -/
def expandTimeline (segments : List SEntry) : List SEntry :=
  expandLoop segments 0 segments

/-- The per-entry expansion the imperative loop achieves: the entry itself
followed by `r` duration-only copies (used to state theorems about
`expandTimeline`). -/
def expandEntry (e : SEntry) : List SEntry :=
  e :: List.replicate e.r.toNat ⟨none, e.d, 0⟩

/-- The start-time assignment loop of lines 362-370:
`current_time = int(segment.attrib.get('t', '-1'))`; an entry whose `t` reads
as the sentinel `-1` (i.e. is absent) receives the running clock, an entry
with an explicit `t` re-anchors the clock; the clock then advances by the
entry's duration. -/
def assignLoop : Int → List SEntry → List SegDesc
  | _, [] => []
  | next_time, seg :: rest =>
    let current_time := seg.t.getD (-1)
    if current_time = -1 then
      ⟨next_time, seg.d⟩ :: assignLoop (next_time + seg.d) rest
    else
      ⟨current_time, seg.d⟩ :: assignLoop (current_time + seg.d) rest

/-- Full resolution of an explicit timeline: expansion (lines 346-357)
followed by start-time assignment (lines 362-370, `next_time = 0` initially). -/
def resolveTimeline (segments : List SEntry) : List SegDesc :=
  assignLoop 0 (expandTimeline segments)

/-- Lines 323-344: when no SegmentTimeline is present, synthesize a single
`<S t="0" d="d" r="ceil((PEwc - PSwc) * ts / d)">` from the SegmentTemplate's
fixed `duration` `d` and `timescale` `ts` and the period's wall-clock span. -/
def synthTimeline (d ts : Int) (PSwc PEwc : ℚ) : List SEntry :=
  [{ t := some 0, d := d, r := ⌈(PEwc - PSwc) * (ts : ℚ) / (d : ℚ)⌉ }]

/-! ### Structure lemmas for the expansion loop -/

lemma insertIdx_length_append (c : SEntry) :
    ∀ (A l : List SEntry), (A ++ l).insertIdx A.length c = A ++ c :: l := by
  intro A
  induction A with
  | nil => intro l; rfl
  | cons a A ih => intro l; simpa [List.insertIdx] using ih l

lemma insertRepeats_spec (d : Int) :
    ∀ (n : Nat) (A l : List SEntry),
      insertRepeats (A ++ l) A.length d n =
        (A ++ List.replicate n ⟨none, d, 0⟩ ++ l, A.length + n) := by
  intro n
  induction n with
  | zero => intro A l; simp [insertRepeats]
  | succ n ih =>
    intro A l
    have h1 : pyInsertIdx (A ++ l) A.length ⟨none, d, 0⟩ = (A ++ [⟨none, d, 0⟩]) ++ l := by
      unfold pyInsertIdx
      rw [show min A.length (A ++ l).length = A.length by simp]
      rw [insertIdx_length_append]
      simp
    have h2 : A.length + 1 = (A ++ [(⟨none, d, 0⟩ : SEntry)]).length := by simp
    rw [insertRepeats, h1, h2, ih]
    simp [List.replicate_succ]
    omega

lemma expandLoop_spec :
    ∀ (l A : List SEntry), expandLoop (A ++ l) A.length l = A ++ l.flatMap expandEntry := by
  intro l
  induction l with
  | nil => intro A; simp [expandLoop]
  | cons e rest ih =>
    intro A
    have h1 : insertRepeats (A ++ e :: rest) (A.length + 1) e.d e.r.toNat =
        ((A ++ expandEntry e) ++ rest, (A ++ expandEntry e).length) := by
      have h2 : A ++ e :: rest = (A ++ [e]) ++ rest := by simp
      have h3 : A.length + 1 = (A ++ [e]).length := by simp
      rw [h2, h3, insertRepeats_spec]
      simp [expandEntry]
      try omega
    rw [expandLoop, h1]
    show expandLoop ((A ++ expandEntry e) ++ rest) (A ++ expandEntry e).length rest =
      A ++ (e :: rest).flatMap expandEntry
    rw [ih]
    simp [expandEntry]

/-- The imperative in-place expansion equals per-entry run-length expansion. -/
lemma expandTimeline_eq_flatMap (segments : List SEntry) :
    expandTimeline segments = segments.flatMap expandEntry := by
  simpa using expandLoop_spec segments []

lemma assignLoop_replicate_none (d : Int) :
    ∀ (n : Nat) (clock : Int),
      assignLoop clock (List.replicate n ⟨none, d, 0⟩) =
        (List.range n).map (fun i => ⟨clock + (i : Int) * d, d⟩) := by
  intro n
  induction n with
  | zero => intro clock; simp [assignLoop]
  | succ n ih =>
    intro clock
    rw [List.replicate_succ, assignLoop]
    simp only [Option.getD_none, reduceIte]
    rw [ih, List.range_succ_eq_map]
    simp only [List.map_cons, List.map_map, Nat.cast_zero, zero_mul, add_zero]
    congr 1
    apply List.map_congr_left
    intro a _
    simp only [Function.comp_apply, SegDesc.mk.injEq, and_true]
    push_cast
    ring

/-- When the loop starts past the end of the timeline (as in the implicit
branch, where the timeline element is empty and `idx` has already been bumped
past the never-inserted anchor), every `list.insert` clamps to the end. -/
lemma insertRepeats_append_end (d : Int) :
    ∀ (n : Nat) (l : List SEntry) (idx : Nat), l.length ≤ idx →
      insertRepeats l idx d n = (l ++ List.replicate n ⟨none, d, 0⟩, idx + n) := by
  intro n
  induction n with
  | zero => intro l idx h; simp [insertRepeats]
  | succ n ih =>
    intro l idx h
    have h1 : pyInsertIdx l idx ⟨none, d, 0⟩ = l ++ [⟨none, d, 0⟩] := by
      unfold pyInsertIdx
      rw [min_eq_right h]
      have h2 := insertIdx_length_append ⟨none, d, 0⟩ l []
      rw [List.append_nil] at h2
      exact h2
    rw [insertRepeats, h1, ih (l ++ [(⟨none, d, 0⟩ : SEntry)]) (idx + 1) (by simp; omega)]
    simp [List.replicate_succ]
    omega

/-- The implicit-branch expansion: the timeline element is created EMPTY at
line 344 while the iterated list holds only the synthesized anchor, so the
loop deposits exactly the `r` duration-only copies — the anchor entry itself
is never inserted into the timeline. -/
lemma expandLoop_empty_single (e : SEntry) :
    expandLoop [] 0 [e] = List.replicate e.r.toNat ⟨none, e.d, 0⟩ := by
  rw [expandLoop, insertRepeats_append_end e.d e.r.toNat [] (0 + 1) (by simp)]
  dsimp only
  rw [expandLoop]
  simp

/-- Resolution of the implicit branch as a whole (lines 323-371 with no
SegmentTimeline present): the synthesized `segments = [S]` are expanded into
the fresh empty `<SegmentTimeline>` of line 344, and the media loop then
walks that element's children. -/
def resolveImplicitTimeline (d ts : Int) (PSwc PEwc : ℚ) : List SegDesc :=
  assignLoop 0 (expandLoop [] 0 (synthTimeline d ts PSwc PEwc))

/-- Closed form of the implicit branch: exactly `⌈(PEwc - PSwc) * ts / d⌉`
segments, segment `i` starting at `i * d` with duration `d` ticks. -/
lemma resolveImplicit_closed (d ts : Int) (PSwc PEwc : ℚ) :
    resolveImplicitTimeline d ts PSwc PEwc =
      (List.range ((⌈(PEwc - PSwc) * (ts : ℚ) / (d : ℚ)⌉).toNat)).map
        (fun i => ⟨(i : Int) * d, d⟩) := by
  unfold resolveImplicitTimeline synthTimeline
  rw [expandLoop_empty_single]
  dsimp only
  rw [assignLoop_replicate_none]
  apply List.map_congr_left
  intro a _
  simp

/-! ## Claim C2: explicit-timeline resolution -/

/-- C2: for every explicit SegmentTimeline, expansion materializes, after each
S-entry, exactly `r` additional entries with the same duration and no explicit
start time; start times are assigned left-to-right by a running clock — an
entry without `t` takes the clock, an entry with an explicit (nonnegative) `t`
re-anchors the clock, and the clock advances by the entry's duration; the
timeline `[{t:0, d:10, r:2}]` resolves to exactly the three descriptors with
starts 0, 10, 20 and duration 10. -/
theorem explicit_timeline_resolution :
    (∀ segments : List SEntry,
        expandTimeline segments =
          segments.flatMap (fun e => e :: List.replicate e.r.toNat ⟨none, e.d, 0⟩))
    ∧ (∀ (clock d r : Int) (rest : List SEntry),
        assignLoop clock (⟨none, d, r⟩ :: rest) = ⟨clock, d⟩ :: assignLoop (clock + d) rest)
    ∧ (∀ (clock : Int) (tv : Nat) (d r : Int) (rest : List SEntry),
        assignLoop clock (⟨some (tv : Int), d, r⟩ :: rest) =
          ⟨(tv : Int), d⟩ :: assignLoop ((tv : Int) + d) rest)
    ∧ resolveTimeline [⟨some 0, 10, 2⟩] = [⟨0, 10⟩, ⟨10, 10⟩, ⟨20, 10⟩] := by
  refine ⟨?_, ?_, ?_, ?_⟩
  · intro segments
    rw [expandTimeline_eq_flatMap]
    rfl
  · intro clock d r rest
    rw [assignLoop]
    simp only [Option.getD_none, reduceIte]
  · intro clock tv d r rest
    rw [assignLoop]
    simp only [Option.getD_some]
    rw [if_neg (by omega : ¬((tv : Int) = -1))]
  · decide

/-! ## Claim C3: implicit-timeline synthesis -/

/-- C3: with no SegmentTimeline present, the code synthesizes a single entry
with `t = 0` and repeat count `ceil((PEwc - PSwc) * ts / d)` and runs it
through the expansion loop — against the EMPTY timeline element of line 344,
so exactly `ceil((PEwc - PSwc) * ts / d)` segments come out, segment `i`
starting at `i * d` with duration `d`; for `d=10`, `ts=1`, span `[0,25)`
exactly 3 segments (starts 0, 10, 20, duration 10) are produced, the last
one covering `[20,30)` and overshooting the period end 25; for positive `d`,
`ts` and a nonempty span the segments cover the whole period. -/
theorem implicit_timeline_segments :
    (∀ (d ts : Int) (PSwc PEwc : ℚ),
        synthTimeline d ts PSwc PEwc =
          [⟨some 0, d, ⌈(PEwc - PSwc) * (ts : ℚ) / (d : ℚ)⌉⟩])
    ∧ (∀ (d ts : Int) (PSwc PEwc : ℚ),
        resolveImplicitTimeline d ts PSwc PEwc =
          (List.range ((⌈(PEwc - PSwc) * (ts : ℚ) / (d : ℚ)⌉).toNat)).map
            (fun i => ⟨(i : Int) * d, d⟩))
    ∧ resolveImplicitTimeline 10 1 0 25 = [⟨0, 10⟩, ⟨10, 10⟩, ⟨20, 10⟩]
    ∧ (resolveImplicitTimeline 10 1 0 25).length = 3
    ∧ (∀ (d ts : Int) (PSwc PEwc : ℚ), 0 < d → 0 < ts → PSwc ≤ PEwc →
        (PEwc - PSwc) * (ts : ℚ) ≤
          ((resolveImplicitTimeline d ts PSwc PEwc).length : ℚ) * (d : ℚ)) := by
  have hc : (⌈((25 : ℚ) - (0 : ℚ)) * ((1 : Int) : ℚ) / ((10 : Int) : ℚ)⌉ : Int) = 3 := by
    push_cast
    rw [Int.ceil_eq_iff]
    norm_num
  have hconc : resolveImplicitTimeline 10 1 0 25 = [⟨0, 10⟩, ⟨10, 10⟩, ⟨20, 10⟩] := by
    rw [resolveImplicit_closed, hc]
    decide
  refine ⟨fun d ts PSwc PEwc => rfl, resolveImplicit_closed, hconc, by rw [hconc]; rfl, ?_⟩
  intro d ts PSwc PEwc hd hts hspan
  set x : ℚ := (PEwc - PSwc) * (ts : ℚ) / (d : ℚ) with hx
  have hdq : (0 : ℚ) < (d : ℚ) := by exact_mod_cast hd
  have hlen : ((resolveImplicitTimeline d ts PSwc PEwc).length : ℚ) = ((⌈x⌉.toNat : ℚ)) := by
    rw [resolveImplicit_closed]
    simp
  have h1 : x ≤ ((⌈x⌉.toNat : ℚ)) := by
    have h2 : x ≤ (⌈x⌉ : ℚ) := Int.le_ceil x
    have h3 : (⌈x⌉ : ℚ) ≤ ((⌈x⌉.toNat : ℚ)) := by
      exact_mod_cast Int.self_le_toNat ⌈x⌉
    linarith
  have h4 : (PEwc - PSwc) * (ts : ℚ) = x * (d : ℚ) := by
    rw [hx]
    field_simp
  rw [hlen, h4]
  exact mul_le_mul_of_nonneg_right h1 (le_of_lt hdq)

/-- Witness for `implicit_timeline_segments` at `d=10`, `ts=1`, span `[0,25)`. -/
theorem implicit_timeline_segments_witness :
    (0 : Int) < 10 ∧ (0 : Int) < 1 ∧ (0 : ℚ) ≤ 25 ∧
      (25 - 0 : ℚ) * ((1 : Int) : ℚ) ≤
        ((resolveImplicitTimeline 10 1 0 25).length : ℚ) * ((10 : Int) : ℚ) :=
  ⟨by norm_num, by norm_num, by norm_num,
    implicit_timeline_segments.2.2.2.2 10 1 0 25 (by norm_num) (by norm_num) (by norm_num)⟩

/-! ## The duration parser `ISO8601DurationSeconds` (lines 62-75)

The source builds the regex `P(([0-9]+(\.[0-9]+)?)D)?T(([0-9]+(\.[0-9]+)?)H)?
(([0-9]+(\.[0-9]+)?)M)?(([0-9]+(\.[0-9]+)?)S)?` and applies `re.match`, which
anchors at the start of the string only.  Each optional group is matched
greedily; a group can only fail when its designator letter does not follow the
digit run, and since a designator is never a digit and never `'.'`, regex
backtracking inside a group can never recover a match, and skipping a
successfully matched group can never help a later literal (the character after
the digits is a digit's successor position, never `T`).  The committed
greedy parser below is therefore exactly the regex's semantics. -/

/-- Greedy run of ASCII digits (`[0-9]+`'s maximal munch). -/
def takeDigits : List Char → List Char × List Char
  | [] => ([], [])
  | c :: cs =>
    if c.isDigit then
      let p := takeDigits cs
      (c :: p.1, p.2)
    else ([], c :: cs)

/-- Decimal value of a digit run, most significant digit first. -/
def digitsVal (ds : List Char) : Nat :=
  ds.foldl (fun acc c => 10 * acc + (c.toNat - '0'.toNat)) 0

/-- The regex group `a_float = ([0-9]+(\.[0-9]+)?)` matched greedily at the
head of `cs`; Python's `float` conversion is embedded into `ℚ`. -/
def parseFloat (cs : List Char) : Option (ℚ × List Char) :=
  match takeDigits cs with
  | ([], _) => none
  | (ds, rest) =>
    match rest with
    | '.' :: rest2 =>
      match takeDigits rest2 with
      | ([], _) => some ((digitsVal ds : ℚ), rest)
      | (fs, rest3) =>
        some ((digitsVal ds : ℚ) + (digitsVal fs : ℚ) / ((10 : ℚ) ^ fs.length), rest3)
    | _ => some ((digitsVal ds : ℚ), rest)

/-- The regex fragment `maybe(suffix) = (a_float suffix)?`: an optional
component; on failure nothing is consumed and the captured group is `None`. -/
def parseComponent (desig : Char) (cs : List Char) : Option ℚ × List Char :=
  match parseFloat cs with
  | none => (none, cs)
  | some (v, rest) =>
    match rest with
    | c :: rest2 => if c = desig then (some v, rest2) else (none, cs)
    | [] => (none, cs)

/-- The part of the pattern after the day group: the mandatory literal `T`
followed by the optional hour, minute and second groups; `dc1` is the captured
day group.  On a match, the weighted sum of line 71-74:
`s + 60*m + 60*60*h + 24*60*60*d` (absent groups count as 0 via
`float(x or '0')`). -/
def parseTimePart (dc1 : Option ℚ) : List Char → Option ℚ
  | 'T' :: cs2 =>
    let hc := parseComponent 'H' cs2
    let mc := parseComponent 'M' hc.2
    let sc := parseComponent 'S' mc.2
    some (sc.1.getD 0 + 60 * mc.1.getD 0 + 60 * 60 * hc.1.getD 0
          + 24 * 60 * 60 * dc1.getD 0)
  | _ => none

/-- The whole anchored pattern over the string's characters: the literal `P`,
the optional day group, then the time part; `none` when `re.match` fails. -/
def parseDurationChars : List Char → Option ℚ
  | 'P' :: cs =>
    let dc := parseComponent 'D' cs
    parseTimePart dc.1 dc.2
  | _ => none

/-- `ISO8601DurationSeconds` (lines 62-75): the weighted sum over the matched
groups on success, `RuntimeError(f'Invalid duration: ...')` when the match
fails. -/
def ISO8601DurationSeconds (duration : String) : Except PyError ℚ :=
  match parseDurationChars duration.data with
  | some v => .ok v
  | none => .error (.runtimeError ("Invalid duration: " ++ duration))

/-! ## Period timing: `MpdLocator.period_start` (lines 113-141) -/

/-- The attributes of one `<Period>` element read by `period_start`. -/
structure PeriodAttrs where
  start : Option String
  duration : Option String
  deriving Repr, DecidableEq

/-- `MpdLocator.period_start`, embedded over the list of the manifest's
`<Period>` elements.  Index 0 returns `0.0` on both attribute branches.  For
index `i > 0` with an explicit `start`, the source parses it and subtracts the
(recursively computed) start of period 0.  For index `i > 0` WITHOUT a `start`
attribute the source executes `RepAddr(rep_addr.period_idx - 1)` (line 129), a
call passing one positional argument to a three-argument constructor, which
raises `TypeError` before the previous period's `duration` is ever consulted
(and the branch also reads the unbound local `previous_duration`, line 132). -/
def period_start (periods : List PeriodAttrs) : Nat → Except PyError ℚ
  | 0 =>
    match periods[0]? with
    | none => .error .indexError
    | some _ => .ok 0
  | i + 1 =>
    match periods[i + 1]? with
    | none => .error .indexError
    | some p =>
      match p.start with
      | some s =>
        match ISO8601DurationSeconds s with
        | .error e => .error e
        | .ok v =>
          match period_start periods 0 with
          | .error e => .error e
          | .ok f => .ok (v - f)
      | none => .error .typeError
termination_by n => n
decreasing_by omega

/-! ## Claim C4: period start computation -/

/-- C4: period 0's derived start is 0 on every branch, and a period `i > 0`
with an explicit `start` yields `parse(start) - start(period 0)` (i.e. the
parsed value); but for `i > 0` WITHOUT an explicit `start` the code raises
`TypeError` (the broken `RepAddr(period_idx - 1)` call) instead of using the
previous period's `duration` or falling back to 0 — resolution aborts. -/
theorem period_start_behavior :
    period_start [⟨none, some "PT10S"⟩, ⟨none, none⟩] 1 = .error .typeError
    ∧ (∀ (q : PeriodAttrs) (ps : List PeriodAttrs), period_start (q :: ps) 0 = .ok 0)
    ∧ (∀ (q : PeriodAttrs) (ps : List PeriodAttrs) (i : Nat) (p : PeriodAttrs) (s : String),
        (q :: ps)[i + 1]? = some p → p.start = some s →
        period_start (q :: ps) (i + 1) = ISO8601DurationSeconds s)
    ∧ (∀ (ps : List PeriodAttrs) (i : Nat) (p : PeriodAttrs),
        ps[i + 1]? = some p → p.start = none →
        period_start ps (i + 1) = .error .typeError) := by
  refine ⟨?_, ?_, ?_, ?_⟩
  · simp [period_start]
  · intro q ps
    simp [period_start]
  · intro q ps i p s hp hs
    rw [period_start, hp]
    dsimp only
    rw [hs]
    dsimp only
    cases hparse : ISO8601DurationSeconds s with
    | error e => rfl
    | ok v => simp [period_start]
  · intro ps i p hp hs
    rw [period_start, hp]
    dsimp only
    rw [hs]

/-- Witness for `period_start_behavior` at concrete two-period manifests. -/
theorem period_start_behavior_witness :
    (([⟨none, some "PT10S"⟩, ⟨some "PT7S", none⟩] : List PeriodAttrs)[1]? =
        some ⟨some "PT7S", none⟩)
    ∧ (⟨some "PT7S", none⟩ : PeriodAttrs).start = some "PT7S"
    ∧ period_start [⟨none, some "PT10S"⟩, ⟨some "PT7S", none⟩] 1 =
        ISO8601DurationSeconds "PT7S"
    ∧ (([⟨none, some "PT10S"⟩, ⟨none, none⟩] : List PeriodAttrs)[1]? = some ⟨none, none⟩)
    ∧ (⟨none, none⟩ : PeriodAttrs).start = none
    ∧ period_start [⟨none, some "PT10S"⟩, ⟨none, none⟩] 1 = .error .typeError :=
  ⟨rfl, rfl,
    period_start_behavior.2.2.1 ⟨none, some "PT10S"⟩ [⟨some "PT7S", none⟩] 0
      ⟨some "PT7S", none⟩ "PT7S" rfl rfl,
    rfl, rfl,
    period_start_behavior.2.2.2 [⟨none, some "PT10S"⟩, ⟨none, none⟩] 0 ⟨none, none⟩ rfl rfl⟩

/-! ## Claim C5: the duration parser -/

/-- C5 counterexample: `"P1D"` is a valid restricted ISO-8601 duration (days
only) yet the parser raises, because the pattern makes the `T` separator
mandatory; and `"PT1Sx"` is malformed (trailing garbage) yet the parser
returns `1.0`, because `re.match` anchors only at the start. -/
theorem duration_parser_cex :
    ISO8601DurationSeconds "P1D" = .error (.runtimeError "Invalid duration: P1D")
    ∧ ISO8601DurationSeconds "PT1Sx" = .ok 1 := by
  constructor
  · rfl
  · have h : ISO8601DurationSeconds "PT1Sx" =
        .ok (((digitsVal ['1'] : ℕ) : ℚ) + 60 * 0 + 60 * 60 * 0 + 24 * 60 * 60 * 0) := rfl
    have h2 : digitsVal ['1'] = 1 := rfl
    rw [h, h2]
    norm_num

/-! ### Digit-run lemmas for the amended parser claim -/

lemma takeDigits_append (ds rest : List Char)
    (hds : ∀ c ∈ ds, c.isDigit = true)
    (hrest : ∀ c, rest.head? = some c → c.isDigit = false) :
    takeDigits (ds ++ rest) = (ds, rest) := by
  induction ds with
  | nil =>
    cases rest with
    | nil => rfl
    | cons c cs => simp [takeDigits, hrest c rfl]
  | cons d0 ds ih =>
    have hd0 : d0.isDigit = true := hds d0 (by simp)
    have ih2 := ih (fun c hc => hds c (by simp [hc]))
    simp [takeDigits, hd0, ih2]

lemma parseFloat_digits (ds rest : List Char) (hne : ds ≠ [])
    (hds : ∀ c ∈ ds, c.isDigit = true)
    (hrest : ∀ c, rest.head? = some c → c.isDigit = false ∧ c ≠ '.') :
    parseFloat (ds ++ rest) = some ((digitsVal ds : ℚ), rest) := by
  have htake : takeDigits (ds ++ rest) = (ds, rest) :=
    takeDigits_append ds rest hds (fun c hc => (hrest c hc).1)
  cases ds with
  | nil => exact absurd rfl hne
  | cons d0 ds' =>
    rw [parseFloat, htake]
    cases rest with
    | nil => rfl
    | cons c cs =>
      have hc := hrest c rfl
      dsimp only
      split
      · next heq =>
        injection heq with h1 h2
        exact absurd h1 hc.2
      · rfl

lemma parseComponent_hit (desig : Char) (ds rest : List Char) (hne : ds ≠ [])
    (hds : ∀ c ∈ ds, c.isDigit = true)
    (hdes : desig.isDigit = false) (hdot : desig ≠ '.') :
    parseComponent desig (ds ++ desig :: rest) = (some (digitsVal ds : ℚ), rest) := by
  have hf : parseFloat (ds ++ desig :: rest) = some ((digitsVal ds : ℚ), desig :: rest) :=
    parseFloat_digits ds (desig :: rest) hne hds
      (fun c hc => by
        simp only [List.head?_cons, Option.some.injEq] at hc
        subst hc
        exact ⟨hdes, hdot⟩)
  rw [parseComponent, hf]
  simp

lemma parseComponent_wrong (desig : Char) (ds rest : List Char) (hne : ds ≠ [])
    (hds : ∀ c ∈ ds, c.isDigit = true)
    (c0 : Char) (hc0d : c0.isDigit = false) (hc0dot : c0 ≠ '.') (hcd : c0 ≠ desig) :
    parseComponent desig (ds ++ c0 :: rest) = (none, ds ++ c0 :: rest) := by
  have hf : parseFloat (ds ++ c0 :: rest) = some ((digitsVal ds : ℚ), c0 :: rest) :=
    parseFloat_digits ds (c0 :: rest) hne hds
      (fun c hc => by
        simp only [List.head?_cons, Option.some.injEq] at hc
        subst hc
        exact ⟨hc0d, hc0dot⟩)
  rw [parseComponent, hf]
  simp [hcd]

/-- C5 amended: the parser accepts exactly the strings beginning with the
prefix `P(<digits>D)?T(<digits>H)?(<digits>M)?(<digits>S)?` (the `T` is
mandatory even for day-only durations, and anything after the matched prefix
is ignored), returning `s + 60*m + 60*60*h + 24*60*60*d`; a year or month
designator in the date position (digits directly after `P`) makes the match
fail and raises, as does a day-only duration lacking the `T`. -/
theorem duration_parser_amended :
    (∀ (dd hh mm ss junk : List Char),
        dd ≠ [] → hh ≠ [] → mm ≠ [] → ss ≠ [] →
        (∀ c ∈ dd, c.isDigit = true) → (∀ c ∈ hh, c.isDigit = true) →
        (∀ c ∈ mm, c.isDigit = true) → (∀ c ∈ ss, c.isDigit = true) →
        ISO8601DurationSeconds
            (String.mk
              ('P' :: (dd ++ 'D' :: 'T' :: (hh ++ 'H' :: (mm ++ 'M' :: (ss ++ 'S' :: junk))))))
          = .ok ((digitsVal ss : ℚ) + 60 * (digitsVal mm : ℚ)
              + 60 * 60 * (digitsVal hh : ℚ) + 24 * 60 * 60 * (digitsVal dd : ℚ)))
    ∧ (∀ (ys junk : List Char), ys ≠ [] → (∀ c ∈ ys, c.isDigit = true) →
        ∃ msg, ISO8601DurationSeconds (String.mk ('P' :: (ys ++ 'Y' :: junk))) =
          .error (.runtimeError msg))
    ∧ (∀ (ys junk : List Char), ys ≠ [] → (∀ c ∈ ys, c.isDigit = true) →
        ∃ msg, ISO8601DurationSeconds (String.mk ('P' :: (ys ++ 'M' :: junk))) =
          .error (.runtimeError msg))
    ∧ (∀ (ds : List Char), ds ≠ [] → (∀ c ∈ ds, c.isDigit = true) →
        ∃ msg, ISO8601DurationSeconds (String.mk ('P' :: (ds ++ ['D']))) =
          .error (.runtimeError msg)) := by
  refine ⟨?_, ?_, ?_, ?_⟩
  · intro dd hh mm ss junk hdne hhne hmne hsne hdd hhh hmm hss
    have hD := parseComponent_hit 'D' dd ('T' :: (hh ++ 'H' :: (mm ++ 'M' :: (ss ++ 'S' :: junk))))
      hdne hdd (by decide) (by decide)
    have hH := parseComponent_hit 'H' hh (mm ++ 'M' :: (ss ++ 'S' :: junk))
      hhne hhh (by decide) (by decide)
    have hM := parseComponent_hit 'M' mm (ss ++ 'S' :: junk)
      hmne hmm (by decide) (by decide)
    have hS := parseComponent_hit 'S' ss junk hsne hss (by decide) (by decide)
    simp only [ISO8601DurationSeconds, parseDurationChars, hD, parseTimePart, hH, hM, hS,
      Option.getD_some]
  · intro ys junk hne hys
    obtain ⟨y0, ys', rfl⟩ : ∃ y0 ys', ys = y0 :: ys' := by
      cases ys with
      | nil => exact absurd rfl hne
      | cons a b => exact ⟨a, b, rfl⟩
    have hy0 : y0.isDigit = true := hys y0 (by simp)
    have hwrong := parseComponent_wrong 'D' (y0 :: ys') junk (by simp) hys 'Y'
      (by decide) (by decide) (by decide)
    have hnone : parseTimePart (none : Option ℚ) ((y0 :: ys') ++ 'Y' :: junk) = none := by
      rw [parseTimePart.eq_def]
      split

      · next heq =>
        rw [List.cons_append] at heq
        injection heq with h1 _
        rw [h1] at hy0
        exact absurd hy0 (by decide)
      · rfl
    have hmain : ISO8601DurationSeconds (String.mk ('P' :: (y0 :: ys' ++ 'Y' :: junk))) =
        .error (.runtimeError ("Invalid duration: " ++
          String.mk ('P' :: (y0 :: ys' ++ 'Y' :: junk)))) := by
      simp only [ISO8601DurationSeconds, parseDurationChars, hwrong, hnone]
    exact ⟨_, hmain⟩
  · intro ys junk hne hys
    obtain ⟨y0, ys', rfl⟩ : ∃ y0 ys', ys = y0 :: ys' := by
      cases ys with
      | nil => exact absurd rfl hne
      | cons a b => exact ⟨a, b, rfl⟩
    have hy0 : y0.isDigit = true := hys y0 (by simp)
    have hwrong := parseComponent_wrong 'D' (y0 :: ys') junk (by simp) hys 'M'
      (by decide) (by decide) (by decide)
    have hnone : parseTimePart (none : Option ℚ) ((y0 :: ys') ++ 'M' :: junk) = none := by
      rw [parseTimePart.eq_def]
      split

      · next heq =>
        rw [List.cons_append] at heq
        injection heq with h1 _
        rw [h1] at hy0
        exact absurd hy0 (by decide)
      · rfl
    have hmain : ISO8601DurationSeconds (String.mk ('P' :: (y0 :: ys' ++ 'M' :: junk))) =
        .error (.runtimeError ("Invalid duration: " ++
          String.mk ('P' :: (y0 :: ys' ++ 'M' :: junk)))) := by
      simp only [ISO8601DurationSeconds, parseDurationChars, hwrong, hnone]
    exact ⟨_, hmain⟩
  · intro ds hne hds
    have hhit := parseComponent_hit 'D' ds [] hne hds (by decide) (by decide)
    have hnone : parseTimePart (some ((digitsVal ds : ℕ) : ℚ)) [] = none := rfl
    have hmain : ISO8601DurationSeconds (String.mk ('P' :: (ds ++ ['D']))) =
        .error (.runtimeError ("Invalid duration: " ++
          String.mk ('P' :: (ds ++ ['D'])))) := by
      simp only [ISO8601DurationSeconds, parseDurationChars, hhit, hnone]
    exact ⟨_, hmain⟩

/-- Witness for `duration_parser_amended`: `"P1DT2H3M4S"` parses to
`4 + 60*3 + 3600*2 + 86400*1` seconds, and `"P1Y"` raises. -/
theorem duration_parser_amended_witness :
    ISO8601DurationSeconds
        (String.mk
          ('P' :: (['1'] ++ 'D' :: 'T' :: (['2'] ++ 'H' :: (['3'] ++ 'M' :: (['4'] ++ 'S' :: []))))))
      = .ok ((digitsVal ['4'] : ℚ) + 60 * (digitsVal ['3'] : ℚ)
          + 60 * 60 * (digitsVal ['2'] : ℚ) + 24 * 60 * 60 * (digitsVal ['1'] : ℚ))
    ∧ (∃ msg, ISO8601DurationSeconds (String.mk ('P' :: (['1'] ++ 'Y' :: []))) =
        .error (.runtimeError msg)) :=
  ⟨duration_parser_amended.1 ['1'] ['2'] ['3'] ['4'] []
      (by decide) (by decide) (by decide) (by decide)
      (by decide) (by decide) (by decide) (by decide),
    duration_parser_amended.2.1 ['1'] [] (by decide) (by decide)⟩

/-! ## Claim C1: dispatch in `DashProxy.handle_mpd` (lines 235-261) -/

/-- The attributes of an `EssentialProperty` descriptor read at line 244. -/
structure DescriptorAttrs where
  schemeIdUri : Option String
  value : Option String
  deriving Repr, DecidableEq

/-- A `<Representation>` element (only its `id` attribute is ever read here). -/
structure RepresentationEl where
  id : Option String
  deriving Repr, DecidableEq

/-- An `<AdaptationSet>`: its `EssentialProperty` children (line 243 reads the
first one via `find`) and its `<Representation>` children. -/
structure AdaptationSet where
  essentialProperties : List DescriptorAttrs
  representations : List RepresentationEl
  deriving Repr, DecidableEq

/-- The positional address triple `RepAddr` (lines 77-84). -/
structure RepAddr where
  period_idx : Nat
  adaptation_set_idx : Nat
  representation_idx : Nat
  deriving Repr, DecidableEq

/-- The trick-mode test of line 244: the FIRST `EssentialProperty` child
exists, has `schemeIdUri = 'http://dashif.org/guidelines/trickmode'` and
`value = '1'`. -/
def isTrickMode (aset : AdaptationSet) : Bool :=
  match aset.essentialProperties.head? with
  | some ep =>
    ep.schemeIdUri == some "http://dashif.org/guidelines/trickmode" && ep.value == some "1"
  | none => false

/-- Lines 241-259: enumerate the adaptation sets of the FIRST period; a
trick-mode set is removed from the copied manifest and dispatches nothing;
otherwise `thread.start()` (line 259) is INSIDE the `for rep_idx,
representation` loop, so one downloader thread is started per enumerated
representation, at address `RepAddr(0, as_idx, rep_idx)`. -/
def dispatchedAddrs (asets : List AdaptationSet) : List RepAddr :=
  asets.enum.flatMap fun p =>
    if isTrickMode p.2 then []
    else p.2.representations.enum.map fun q => ⟨0, p.1, q.1⟩

/-- Lines 244-245 and 261: the normalized manifest written to `manifest.mpd`
keeps exactly the non-trick-mode adaptation sets, in order. -/
def writtenAdaptationSets (asets : List AdaptationSet) : List AdaptationSet :=
  asets.filter (fun a => !isTrickMode a)

/-- C1 counterexample: a first period with one non-trick-mode adaptation set
holding two representations starts a downloader for BOTH representations
(addresses (0,0,0) and (0,0,1)), not only for the last-enumerated one. -/
theorem dispatch_not_only_last_cex :
    dispatchedAddrs [⟨[], [⟨some "a"⟩, ⟨some "b"⟩]⟩] = [⟨0, 0, 0⟩, ⟨0, 0, 1⟩]
    ∧ dispatchedAddrs [⟨[], [⟨some "a"⟩, ⟨some "b"⟩]⟩] ≠ [⟨0, 0, 1⟩] := by
  constructor
  · decide
  · decide

/-- C1 amended: on every refresh a downloader is started for EVERY
representation of each non-trick-mode adaptation set of the first period
(address (0, i, j) is dispatched iff adaptation set i exists, is not
trick-mode, and has a representation at index j), every dispatched address
lies in period 0, and the written normalized manifest keeps exactly the
non-trick-mode adaptation sets. -/
theorem dispatch_all_non_trick_reps :
    (∀ (asets : List AdaptationSet) (i j : Nat),
        (⟨0, i, j⟩ : RepAddr) ∈ dispatchedAddrs asets ↔
          ∃ aset, asets[i]? = some aset ∧ isTrickMode aset = false
            ∧ j < aset.representations.length)
    ∧ (∀ (asets : List AdaptationSet) (addr : RepAddr),
        addr ∈ dispatchedAddrs asets → addr.period_idx = 0)
    ∧ (∀ (asets : List AdaptationSet) (aset : AdaptationSet),
        aset ∈ writtenAdaptationSets asets ↔ aset ∈ asets ∧ isTrickMode aset = false) := by
  refine ⟨?_, ?_, ?_⟩
  · intro asets i j
    constructor
    · intro hmem
      rw [dispatchedAddrs, List.mem_flatMap] at hmem
      obtain ⟨p, hp, hin⟩ := hmem
      by_cases htrick : isTrickMode p.2
      · rw [if_pos htrick] at hin
        exact absurd hin (List.not_mem_nil _)
      · rw [if_neg htrick] at hin
        rw [List.mem_map] at hin
        obtain ⟨q, hq, heq⟩ := hin
        obtain ⟨hp0, hi, hj⟩ : (0 : Nat) = 0 ∧ p.1 = i ∧ q.1 = j := by
          refine ⟨rfl, ?_, ?_⟩ <;> cases heq <;> rfl
        refine ⟨p.2, ?_, by simpa using htrick, ?_⟩
        · rw [← hi]
          have := List.mk_mem_enum_iff_getElem?.mp (by simpa using hp)
          simpa using this
        · rw [← hj]
          have := List.mk_mem_enum_iff_getElem?.mp (by simpa using hq)
          exact (List.getElem?_eq_some_iff.mp (by simpa using this)).1
    · rintro ⟨aset, hget, htrick, hj⟩
      rw [dispatchedAddrs, List.mem_flatMap]
      refine ⟨(i, aset), List.mk_mem_enum_iff_getElem?.mpr hget, ?_⟩
      rw [if_neg (by simp [htrick])]
      rw [List.mem_map]
      exact ⟨(j, aset.representations.get ⟨j, hj⟩),
        List.mk_mem_enum_iff_getElem?.mpr (List.getElem?_eq_some_iff.mpr ⟨hj, rfl⟩), rfl⟩
  · intro asets addr hmem
    rw [dispatchedAddrs, List.mem_flatMap] at hmem
    obtain ⟨p, _, hin⟩ := hmem
    by_cases htrick : isTrickMode p.2
    · rw [if_pos htrick] at hin
      exact absurd hin (List.not_mem_nil _)
    · rw [if_neg htrick] at hin
      rw [List.mem_map] at hin
      obtain ⟨q, _, heq⟩ := hin
      cases heq
      rfl
  · intro asets aset
    simp [writtenAdaptationSets, List.mem_filter]

/-! ## Claim C6: the refresh retry loop `DashProxy.refresh_mpd` (lines 198-220) -/

/-- One HTTP response to the manifest GET: status code and body text. -/
structure HttpResponse where
  status : Nat
  text : String
  deriving Repr, DecidableEq

/-- Line 204's test: `r.status_code < 200 or r.status_code >= 300`. -/
def statusBad (r : HttpResponse) : Bool :=
  r.status < 200 || r.status ≥ 300

/-- `refresh_mpd`, driven by the oracle list of successive GET responses (the
head is what the next `requests.get` returns).  Result: `(number of GET
attempts made, the response bodies parsed and handed to handle_mpd, in
execution order)`.  The source has NO `return` in the failure branch (lines
204-210): when the status is bad it recurses to retry (while `error_cnt < 10`)
and THEN falls through to line 213 and parses the CURRENT failed response's
body anyway.  A successful fetch is modelled for a VOD manifest (one cycle, no
re-refresh). -/
def refresh_mpd : List HttpResponse → Nat → Nat × List String
  | [], _ => (0, [])
  | r :: rest, error_cnt =>
    if statusBad r then
      let rec_res := if error_cnt + 1 < 10 then refresh_mpd rest (error_cnt + 1) else (0, [])
      (1 + rec_res.1, rec_res.2 ++ [r.text])
    else (1, [r.text])

/-- C6: with the server returning HTTP 500 forever, the loop does stop
fetching after the 10-attempt cap (the retry-with-cap part of the claim
holds), but it does NOT abandon the cycle: after logging the terminal
warning, control falls through and every one of the ten failed response
bodies is parsed and dispatched to `handle_mpd` (innermost call first) —
there is no `return` guarding lines 212-220. -/
theorem refresh_cap_still_parses_failed_response :
    refresh_mpd (List.replicate 20 ⟨500, "error-page"⟩) 0 =
      (10, List.replicate 10 "error-page")
    ∧ (refresh_mpd (List.replicate 20 ⟨500, "error-page"⟩) 0).2 ≠ [] := by
  constructor
  · rfl
  · intro h
    rw [show refresh_mpd (List.replicate 20 ⟨500, "error-page"⟩) 0 =
      (10, List.replicate 10 "error-page") from rfl] at h
    simp at h

/-! ## Template rendering and the per-segment download driver
(`render_template` lines 395-410, `download_template` lines 373-393, media
loop lines 359-371) -/

/-- A URL template, pre-split at the placeholder tokens `render_template`
recognizes and rewrites into `str.format` fields (lines 396-399):
`$RepresentationID$`, `$Number$`, `$Number%0Nd$`, `$Time$`; everything else —
including unrecognized `$...$` sequences, which contain no braces — is
literal text to `str.format`. -/
inductive TemplatePart where
  | lit (s : String)
  | representationID
  | number
  | numberPad (width : Nat)
  | timeTok
  deriving Repr, DecidableEq

/-- The `args` dict of lines 401-407: `representation_id` present when a
representation element was passed (its `id` attribute, default `''`), `time`
when a segment element was passed (its `t` attribute), `number` when an index
was passed. -/
structure FormatArgs where
  representation_id : Option String
  time : Option String
  number : Option Int
  deriving Repr, DecidableEq

/-- Zero-padding of `{number:0Nd}` (for the nonnegative segment numbers the
code passes). -/
def padNum (width : Nat) (n : Int) : String :=
  let s := toString n
  String.mk (List.replicate (width - s.length) '0') ++ s

/-- One `str.format` field: a missing substitution argument is the KeyError
the claim calls a render failure. -/
def formatPart (args : FormatArgs) : TemplatePart → Except PyError String
  | .lit s => .ok s
  | .representationID =>
    match args.representation_id with
    | some v => .ok v
    | none => .error .keyError
  | .number =>
    match args.number with
    | some n => .ok (toString n)
    | none => .error .keyError
  | .numberPad w =>
    match args.number with
    | some n => .ok (padNum w n)
    | none => .error .keyError
  | .timeTok =>
    match args.time with
    | some v => .ok v
    | none => .error .keyError

/-- `render_template` (lines 395-410): substitute every field; the first
missing argument raises.  The call sits at line 374, OUTSIDE the try/except
that guards only the HTTP fetch, so the exception propagates. -/
def render_template (tmpl : List TemplatePart) (args : FormatArgs) :
    Except PyError String := do
  let parts ← tmpl.mapM (formatPart args)
  pure (String.join parts)

/-- The downloader-visible world: the set of files on disk and the log of
HTTP requests issued, in order.  (The rendered string serves as both the
destination path and the URL; the query-strip and base-url concatenation of
lines 375-377 do not affect any claim.) -/
structure DownloadState where
  fs : List String
  requested : List String
  deriving Repr, DecidableEq

/-- `download_template` (lines 373-393): render; if the destination file
already exists, skip silently (no request); otherwise issue the GET — on a
2xx response (`httpOk`) stream it to disk, on failure the exception/status is
caught at lines 383-393, logged, and the file is simply not created.  Only a
render failure escapes. -/
def download_template (httpOk : String → Bool) (st : DownloadState)
    (tmpl : List TemplatePart) (args : FormatArgs) : Except PyError DownloadState :=
  match render_template tmpl args with
  | .error e => .error e
  | .ok dest =>
    if st.fs.contains dest then .ok st
    else
      .ok { fs := if httpOk dest then dest :: st.fs else st.fs,
            requested := st.requested ++ [dest] }

/-- Arguments for rendering the initialization template (line 318:
`download_template(initialization_template, rep)` — no segment, no index). -/
def initArgs (repId : Option String) : FormatArgs :=
  { representation_id := some (repId.getD ""), time := none, number := none }

/-- Arguments for rendering one media segment (line 371: representation,
segment with its assigned `t`, and `index + startNumber`). -/
def mediaArgs (repId : Option String) (startTime : Int) (number : Int) : FormatArgs :=
  { representation_id := some (repId.getD ""), time := some (toString startTime),
    number := some number }

/-- Everything `DashDownloader.handle_mpd` needs for one representation. -/
structure RepSpec where
  repId : Option String
  initTmpl : Option (List TemplatePart)
  mediaTmpl : List TemplatePart
  startNumber : Int
  segments : List SegDesc
  deriving Repr, DecidableEq

/-- The media loop of lines 364-371 over the enumerated resolved segments:
segments are processed in timeline order; the first uncaught exception (a
render failure) aborts the remaining iterations — the downloader thread dies.
Returns the final state and the escaped exception, if any. -/
def downloadSegments (httpOk : String → Bool) (mediaTmpl : List TemplatePart)
    (repId : Option String) (startNumber : Int) :
    DownloadState → List (Nat × SegDesc) → DownloadState × Option PyError
  | st, [] => (st, none)
  | st, (idx, seg) :: rest =>
    match download_template httpOk st mediaTmpl
        (mediaArgs repId seg.start ((idx : Int) + startNumber)) with
    | .error e => (st, some e)
    | .ok st2 => downloadSegments httpOk mediaTmpl repId startNumber st2 rest

/-- One representation's whole downloader pass (lines 307-371): the
initialization segment first, when declared (lines 315-318), then the media
loop; an exception while fetching the initialization segment aborts the whole
pass before any media segment is touched. -/
def runRepresentation (httpOk : String → Bool) (spec : RepSpec) (st : DownloadState) :
    DownloadState × Option PyError :=
  match spec.initTmpl with
  | some t =>
    match download_template httpOk st t (initArgs spec.repId) with
    | .error e => (st, some e)
    | .ok st2 =>
      downloadSegments httpOk spec.mediaTmpl spec.repId spec.startNumber st2
        spec.segments.enum
  | none =>
    downloadSegments httpOk spec.mediaTmpl spec.repId spec.startNumber st
      spec.segments.enum

/-- Lines 256-259: each representation's downloader runs in its own thread,
and an uncaught exception kills only that thread; the run as a whole
continues with the other representations. -/
def runAll (httpOk : String → Bool) (specs : List RepSpec) (st : DownloadState) :
    List (DownloadState × Option PyError) :=
  specs.map (fun spec => runRepresentation httpOk spec st)

/-! ## Claim C7: scope of a template-render failure -/

/-- Parts whose substitution argument exists only when a segment (and index)
is passed to `render_template` — exactly the parts that can be missing for
the initialization-template render of line 318. -/
def usesSegmentArg : TemplatePart → Bool
  | .number => true
  | .numberPad _ => true
  | .timeTok => true
  | _ => false

lemma formatPart_initArgs_error (repId : Option String) (p : TemplatePart) :
    formatPart (initArgs repId) p = .error .keyError ↔ usesSegmentArg p = true := by
  cases p <;> simp [formatPart, initArgs, usesSegmentArg]

lemma formatPart_initArgs_ok (repId : Option String) (p : TemplatePart)
    (h : usesSegmentArg p = false) : ∃ v, formatPart (initArgs repId) p = .ok v := by
  cases p <;> simp_all [formatPart, initArgs, usesSegmentArg]

lemma formatPart_mediaArgs_ok (repId : Option String) (ti n : Int) (p : TemplatePart) :
    ∃ v, formatPart (mediaArgs repId ti n) p = .ok v := by
  cases p <;> simp [formatPart, mediaArgs]

lemma mapM_initArgs_error (repId : Option String) :
    ∀ (t : List TemplatePart), (∃ p ∈ t, usesSegmentArg p = true) →
      t.mapM (formatPart (initArgs repId)) = .error .keyError := by
  intro t
  induction t with
  | nil => rintro ⟨p, hp, _⟩; exact absurd hp (List.not_mem_nil p)
  | cons p0 rest ih =>
    rintro ⟨p, hp, hseg⟩
    rw [List.mapM_cons]
    by_cases h0 : usesSegmentArg p0 = true
    · rw [(formatPart_initArgs_error repId p0).mpr h0]
      rfl
    · obtain ⟨v, hv⟩ := formatPart_initArgs_ok repId p0 (by simpa using h0)
      rw [hv]
      have hrest : ∃ q ∈ rest, usesSegmentArg q = true := by
        rcases List.mem_cons.mp hp with h | h
        · exact absurd (h ▸ hseg) h0
        · exact ⟨p, h, hseg⟩
      rw [show (rest.mapM (formatPart (initArgs repId))) = .error .keyError from ih hrest]
      rfl

lemma mapM_mediaArgs_ok (repId : Option String) (ti n : Int) :
    ∀ (t : List TemplatePart), ∃ vs, t.mapM (formatPart (mediaArgs repId ti n)) = .ok vs := by
  intro t
  induction t with
  | nil => exact ⟨[], rfl⟩
  | cons p0 rest ih =>
    obtain ⟨v, hv⟩ := formatPart_mediaArgs_ok repId ti n p0
    obtain ⟨vs, hvs⟩ := ih
    refine ⟨v :: vs, ?_⟩
    rw [List.mapM_cons, hv, hvs]
    rfl

/-- C7 counterexample: an initialization template using `$Number$` renders
with no `index` argument (line 318 passes only the representation), the
`KeyError` escapes `download_template` (the render happens outside the
try/except), and the WHOLE representation pass aborts: neither of the two
perfectly renderable media segments is requested — contradicting "the
representation's remaining segments are still rendered and fetched". -/
theorem render_failure_aborts_pass_cex :
    runRepresentation (fun _ => true)
        { repId := some "v0", initTmpl := some [.number, .lit "-init.mp4"],
          mediaTmpl := [.lit "seg-", .number], startNumber := 0,
          segments := [⟨0, 10⟩, ⟨10, 10⟩] }
        ⟨[], []⟩ = (⟨[], []⟩, some .keyError)
    ∧ (runRepresentation (fun _ => true)
        { repId := some "v0", initTmpl := some [.number, .lit "-init.mp4"],
          mediaTmpl := [.lit "seg-", .number], startNumber := 0,
          segments := [⟨0, 10⟩, ⟨10, 10⟩] }
        ⟨[], []⟩).1.requested = [] := by
  constructor
  · rfl
  · rfl

/-- C7 amended: a missing-argument render failure can only arise for the
initialization template (the media loop always supplies all three arguments,
so its renders always succeed); when it arises it aborts the representation's
whole pass — no media segment of that representation is fetched — while other
representations' passes, each in its own thread, are computed independently
and unaffected. -/
theorem render_failure_scope :
    (∀ (t : List TemplatePart) (repId : Option String),
        (∃ p ∈ t, usesSegmentArg p = true) →
        render_template t (initArgs repId) = .error .keyError)
    ∧ (∀ (t : List TemplatePart) (repId : Option String) (ti n : Int),
        ∃ s, render_template t (mediaArgs repId ti n) = .ok s)
    ∧ (∀ (httpOk : String → Bool) (spec : RepSpec) (st : DownloadState)
          (t : List TemplatePart) (e : PyError),
        spec.initTmpl = some t →
        render_template t (initArgs spec.repId) = .error e →
        runRepresentation httpOk spec st = (st, some e))
    ∧ (∀ (httpOk : String → Bool) (specs : List RepSpec) (st : DownloadState) (i : Nat),
        (runAll httpOk specs st)[i]? =
          (specs[i]?).map (fun spec => runRepresentation httpOk spec st)) := by
  refine ⟨?_, ?_, ?_, ?_⟩
  · intro t repId hex
    rw [render_template]
    rw [mapM_initArgs_error repId t hex]
    rfl
  · intro t repId ti n
    obtain ⟨vs, hvs⟩ := mapM_mediaArgs_ok repId ti n t
    exact ⟨String.join vs, by rw [render_template, hvs]; rfl⟩
  · intro httpOk spec st t e hinit hrender
    rw [runRepresentation, hinit]
    dsimp only
    unfold download_template
    rw [hrender]
  · intro httpOk specs st i
    simp [runAll]

/-- Witness for `render_failure_scope` at a concrete one-segment spec. -/
theorem render_failure_scope_witness :
    render_template [TemplatePart.number] (initArgs (some "v0")) = .error .keyError
    ∧ runRepresentation (fun _ => true)
        { repId := some "v0", initTmpl := some [TemplatePart.number],
          mediaTmpl := [TemplatePart.representationID], startNumber := 0,
          segments := [⟨0, 10⟩] } ⟨[], []⟩
        = (⟨[], []⟩, some .keyError) :=
  ⟨render_failure_scope.1 [TemplatePart.number] (some "v0")
      ⟨TemplatePart.number, by simp, rfl⟩,
    render_failure_scope.2.2.1 (fun _ => true)
      { repId := some "v0", initTmpl := some [TemplatePart.number],
        mediaTmpl := [TemplatePart.representationID], startNumber := 0,
        segments := [⟨0, 10⟩] } ⟨[], []⟩ [TemplatePart.number] .keyError rfl
      (render_failure_scope.1 [TemplatePart.number] (some "v0")
        ⟨TemplatePart.number, by simp, rfl⟩)⟩

/-! ## Claim C8: idempotent fetching -/

lemma download_template_skip (httpOk : String → Bool) (st : DownloadState)
    (tmpl : List TemplatePart) (args : FormatArgs) (dest : String)
    (hr : render_template tmpl args = .ok dest) (hc : st.fs.contains dest = true) :
    download_template httpOk st tmpl args = .ok st := by
  unfold download_template
  rw [hr]
  dsimp only
  rw [if_pos hc]

lemma download_allOk_ok (st : DownloadState) (tmpl : List TemplatePart)
    (args : FormatArgs) (st2 : DownloadState)
    (h : download_template (fun _ => true) st tmpl args = .ok st2) :
    ∃ dest, render_template tmpl args = .ok dest ∧ st2.fs.contains dest = true
      ∧ (∀ x, st.fs.contains x = true → st2.fs.contains x = true) := by
  unfold download_template at h
  cases hr : render_template tmpl args with
  | error e => rw [hr] at h; exact absurd h (by simp)
  | ok dest =>
    rw [hr] at h
    dsimp only at h
    by_cases hc : st.fs.contains dest = true
    · rw [if_pos hc] at h
      injection h with h2
      subst h2
      exact ⟨dest, rfl, hc, fun x hx => hx⟩
    · rw [if_neg hc] at h
      injection h with h2
      subst h2
      refine ⟨dest, rfl, by simp, ?_⟩
      intro x hx
      simp only [if_true, List.contains_cons, hx, Bool.or_true]

lemma downloadSegments_fs_mono (httpOk : String → Bool) (mt : List TemplatePart)
    (r : Option String) (sn : Int) :
    ∀ (l : List (Nat × SegDesc)) (st : DownloadState) (x : String),
      st.fs.contains x = true →
      ((downloadSegments httpOk mt r sn st l).1).fs.contains x = true := by
  intro l
  induction l with
  | nil => intro st x hx; exact hx
  | cons p rest ih =>
    intro st x hx
    obtain ⟨idx, seg⟩ := p
    rw [downloadSegments]
    cases hdl : download_template httpOk st mt (mediaArgs r seg.start ((idx : Int) + sn)) with
    | error e => exact hx
    | ok st2 =>
      dsimp only
      refine ih st2 x ?_
      unfold download_template at hdl
      cases hr : render_template mt (mediaArgs r seg.start ((idx : Int) + sn)) with
      | error e => rw [hr] at hdl; exact absurd hdl (by simp)
      | ok dest =>
        rw [hr] at hdl
        dsimp only at hdl
        by_cases hc : st.fs.contains dest = true
        · rw [if_pos hc] at hdl
          injection hdl with h2
          subst h2
          exact hx
        · rw [if_neg hc] at hdl
          injection hdl with h2
          subst h2
          by_cases hok : httpOk dest = true
          · simp only [hok, reduceIte, List.contains_cons, hx, Bool.or_true]
          · simp only [Bool.not_eq_true] at hok
            simp only [hok, reduceIte]
            exact hx

lemma downloadSegments_allOk_idem (mt : List TemplatePart) (r : Option String) (sn : Int) :
    ∀ (l : List (Nat × SegDesc)) (st st1 : DownloadState),
      downloadSegments (fun _ => true) mt r sn st l = (st1, none) →
      downloadSegments (fun _ => true) mt r sn st1 l = (st1, none) := by
  intro l
  induction l with
  | nil =>
    intro st st1 h
    rw [downloadSegments] at h
    rw [downloadSegments]
  | cons p rest ih =>
    intro st st1 h
    obtain ⟨idx, seg⟩ := p
    rw [downloadSegments] at h
    cases hdl : download_template (fun _ => true) st mt
        (mediaArgs r seg.start ((idx : Int) + sn)) with
    | error e =>
      rw [hdl] at h
      dsimp only at h
      injection h with _ h2
      exact absurd h2.symm (by simp)
    | ok st2 =>
      rw [hdl] at h
      dsimp only at h
      obtain ⟨dest, hr, hdest2, _⟩ := download_allOk_ok st mt _ st2 hdl
      have hdest1 : st1.fs.contains dest = true := by
        have := downloadSegments_fs_mono (fun _ => true) mt r sn rest st2 dest hdest2
        rw [h] at this
        exact this
      rw [downloadSegments,
        download_template_skip (fun _ => true) st1 mt _ dest hr hdest1]
      dsimp only
      exact ih st2 st1 h

/-- C8: fetching is idempotent.  First conjunct: when the rendered destination
is already on disk, `download_template` issues no HTTP request and leaves the
state (filesystem AND request log) unchanged.  Second conjunct: when a whole
representation pass completes without an escaped exception and with all
fetches succeeding, re-running the same pass from the resulting state is a
no-op — same filesystem, same request log (zero additional HTTP requests). -/
theorem download_idempotent :
    (∀ (httpOk : String → Bool) (st : DownloadState) (tmpl : List TemplatePart)
        (args : FormatArgs) (dest : String),
        render_template tmpl args = .ok dest → st.fs.contains dest = true →
        download_template httpOk st tmpl args = .ok st)
    ∧ (∀ (spec : RepSpec) (st st1 : DownloadState),
        runRepresentation (fun _ => true) spec st = (st1, none) →
        runRepresentation (fun _ => true) spec st1 = (st1, none)) := by
  constructor
  · intro httpOk st tmpl args dest hr hc
    exact download_template_skip httpOk st tmpl args dest hr hc
  · intro spec st st1 h
    rw [runRepresentation] at h ⊢
    cases hinit : spec.initTmpl with
    | none =>
      rw [hinit] at h
      dsimp only at h ⊢
      exact downloadSegments_allOk_idem spec.mediaTmpl spec.repId spec.startNumber
        spec.segments.enum st st1 h
    | some t =>
      rw [hinit] at h
      dsimp only at h ⊢
      cases hdl : download_template (fun _ => true) st t (initArgs spec.repId) with
      | error e =>
        rw [hdl] at h
        dsimp only at h
        injection h with _ h2
        exact absurd h2.symm (by simp)
      | ok st2 =>
        rw [hdl] at h
        dsimp only at h
        obtain ⟨dest, hr, hdest2, _⟩ := download_allOk_ok st t _ st2 hdl
        have hdest1 : st1.fs.contains dest = true := by
          have := downloadSegments_fs_mono (fun _ => true) spec.mediaTmpl spec.repId
            spec.startNumber spec.segments.enum st2 dest hdest2
          rw [h] at this
          exact this
        rw [download_template_skip (fun _ => true) st1 t _ dest hr hdest1]
        dsimp only
        exact downloadSegments_allOk_idem spec.mediaTmpl spec.repId spec.startNumber
          spec.segments.enum st2 st1 h

/-- Witness for `download_idempotent`: a one-segment representation fetched
once; re-running from the resulting state changes nothing and requests
nothing. -/
theorem download_idempotent_witness :
    runRepresentation (fun _ => true)
        { repId := some "v0", initTmpl := none,
          mediaTmpl := [TemplatePart.representationID], startNumber := 0,
          segments := [⟨0, 10⟩] } ⟨[], []⟩ = (⟨["v0"], ["v0"]⟩, none)
    ∧ runRepresentation (fun _ => true)
        { repId := some "v0", initTmpl := none,
          mediaTmpl := [TemplatePart.representationID], startNumber := 0,
          segments := [⟨0, 10⟩] } ⟨["v0"], ["v0"]⟩ = (⟨["v0"], ["v0"]⟩, none) :=
  ⟨by decide,
    download_idempotent.2
      { repId := some "v0", initTmpl := none,
        mediaTmpl := [TemplatePart.representationID], startNumber := 0,
        segments := [⟨0, 10⟩] } ⟨[], []⟩ ⟨["v0"], ["v0"]⟩ (by decide)⟩

/-- Witness for `dispatch_all_non_trick_reps` at a one-set, one-representation
period. -/
theorem dispatch_all_non_trick_reps_witness :
    (⟨0, 0, 0⟩ : RepAddr) ∈ dispatchedAddrs [⟨[], [⟨some "a"⟩]⟩]
    ∧ (⟨0, 0, 0⟩ : RepAddr).period_idx = 0 :=
  ⟨by decide,
    dispatch_all_non_trick_reps.2.1 [⟨[], [⟨some "a"⟩]⟩] ⟨0, 0, 0⟩ (by decide)⟩

/-! ## Claims C9 and C10: the downloader registry (`ensure_downloader`,
lines 270-277, and its callers at lines 256-259)

The `RepAddr` class (lines 77-84) defines neither `__eq__` nor `__hash__`,
so `rep_addr in self.downloaders` at line 271 hashes and compares dict keys
by OBJECT IDENTITY, never by the index triple's value — and line 256
constructs a FRESH `RepAddr` object for every dispatch of every refresh, so
the membership check never succeeds in any execution of the program. -/

/-- A Python `RepAddr` OBJECT: `objId` models the object's identity (Python
`id()`), `addr` the index triple it carries. -/
structure PyRepAddr where
  objId : Nat
  addr : RepAddr
  deriving Repr, DecidableEq

/-- Line 271's `rep_addr in self.downloaders`: with the default
`object.__hash__`/`object.__eq__`, dict membership is identity-based. -/
def registryContains (reg : List PyRepAddr) (a : PyRepAddr) : Bool :=
  reg.any (fun k => k.objId == a.objId)

/-- `ensure_downloader` (lines 270-277): on a hit, log and return; on a miss,
create the downloader, insert it under the (object) key and run its
resolution against the current manifest snapshot. -/
def ensure_downloader (reg : List PyRepAddr) (a : PyRepAddr) : List PyRepAddr × Bool :=
  if registryContains reg a then (reg, false)
  else (reg ++ [a], true)

/-- One refresh cycle's dispatch (`handle_mpd`, lines 256-259) of snapshot
number `snap`: line 256 builds a fresh `RepAddr` object per dispatched
triple (`nextId` is the identity allocator); returns the registry, the next
fresh id, and the `(triple, snapshot)` pairs whose downloader pass ran. -/
def processRefresh (reg : List PyRepAddr) (snap : Nat) (nextId : Nat) :
    List RepAddr → List PyRepAddr × Nat × List (RepAddr × Nat)
  | [] => (reg, nextId, [])
  | t :: rest =>
    let e := ensure_downloader reg ⟨nextId, t⟩
    let p := processRefresh e.1 snap (nextId + 1) rest
    (p.1, p.2.1, (if e.2 then [(t, snap)] else []) ++ p.2.2)

/-- Successive live refreshes (registry and identity allocator persist;
entries are never removed). -/
def processRefreshes (reg : List PyRepAddr) (i : Nat) (nextId : Nat) :
    List (List RepAddr) → List (RepAddr × Nat)
  | [] => []
  | m :: ms =>
    let p := processRefresh reg i nextId m
    p.2.2 ++ processRefreshes p.1 (i + 1) p.2.1 ms

/-- Statement helper: every dispatched triple of every snapshot, tagged with
its snapshot number. -/
def allResolved (i : Nat) : List (List RepAddr) → List (RepAddr × Nat)
  | [] => []
  | m :: ms => m.map (fun t => (t, i)) ++ allResolved (i + 1) ms

lemma processRefresh_fresh (snap : Nat) :
    ∀ (l : List RepAddr) (reg : List PyRepAddr) (nextId : Nat),
      (∀ k ∈ reg, k.objId < nextId) →
      (processRefresh reg snap nextId l).2.2 = l.map (fun t => (t, snap))
      ∧ (processRefresh reg snap nextId l).2.1 = nextId + l.length
      ∧ (∀ k ∈ (processRefresh reg snap nextId l).1,
          k.objId < nextId + l.length) := by
  intro l
  induction l with
  | nil =>
    intro reg nextId hinv
    refine ⟨rfl, by simp [processRefresh], ?_⟩
    intro k hk
    rw [processRefresh] at hk
    simpa using hinv k hk
  | cons t rest ih =>
    intro reg nextId hinv
    have hmiss : ensure_downloader reg ⟨nextId, t⟩ = (reg ++ [⟨nextId, t⟩], true) := by
      unfold ensure_downloader
      have hfalse : registryContains reg ⟨nextId, t⟩ = false := by
        unfold registryContains
        rw [List.any_eq_false]
        intro k hk
        simpa using Nat.ne_of_lt (hinv k hk)
      rw [hfalse]
      rfl
    have hinv2 : ∀ k ∈ reg ++ [(⟨nextId, t⟩ : PyRepAddr)], k.objId < nextId + 1 := by
      intro k hk
      rcases List.mem_append.mp hk with h | h
      · exact Nat.lt_succ_of_lt (hinv k h)
      · rw [List.mem_singleton.mp h]
        exact Nat.lt_succ_self nextId
    obtain ⟨ih1, ih2, ih3⟩ := ih (reg ++ [⟨nextId, t⟩]) (nextId + 1) hinv2
    rw [processRefresh]
    dsimp only
    rw [hmiss]
    dsimp only
    refine ⟨?_, ?_, ?_⟩
    · rw [ih1]
      rfl
    · rw [ih2]
      simp only [List.length_cons]
      omega
    · intro k hk
      have h5 := ih3 k hk
      simp only [List.length_cons]
      omega

lemma processRefreshes_all :
    ∀ (ms : List (List RepAddr)) (reg : List PyRepAddr) (i nextId : Nat),
      (∀ k ∈ reg, k.objId < nextId) →
      processRefreshes reg i nextId ms = allResolved i ms := by
  intro ms
  induction ms with
  | nil => intro reg i nextId hinv; rfl
  | cons m ms ih =>
    intro reg i nextId hinv
    rw [processRefreshes, allResolved]
    obtain ⟨h1, h2, h3⟩ := processRefresh_fresh i m reg nextId hinv
    have hinv2 : ∀ k ∈ (processRefresh reg i nextId m).1,
        k.objId < (processRefresh reg i nextId m).2.1 := by
      rw [h2]
      exact h3
    rw [h1, ih (processRefresh reg i nextId m).1 (i + 1)
      (processRefresh reg i nextId m).2.1 hinv2]

/-- C9: the at-most-one-downloader-per-address invariant fails WITHOUT any
concurrency: dict keys are compared by object identity (no `__eq__` /
`__hash__` on `RepAddr`) and every dispatch passes a fresh object, so even
two SEQUENTIAL `ensure_downloader` calls for the same triple both miss, both
start an active downloader pass, and the dict ends with TWO entries carrying
that one address — contradicting both "exactly one entry per distinct
RepresentationAddress" and "never two active downloaders for the same
address" (the interleaving race the spec flags is moot: the guard never
fires at all). -/
theorem registry_two_active_sequential :
    ensure_downloader [] ⟨0, ⟨0, 0, 0⟩⟩ = ([⟨0, ⟨0, 0, 0⟩⟩], true)
    ∧ ensure_downloader [⟨0, ⟨0, 0, 0⟩⟩] ⟨1, ⟨0, 0, 0⟩⟩ =
        ([⟨0, ⟨0, 0, 0⟩⟩, ⟨1, ⟨0, 0, 0⟩⟩], true)
    ∧ (([⟨0, ⟨0, 0, 0⟩⟩, ⟨1, ⟨0, 0, 0⟩⟩] : List PyRepAddr).filter
        (fun k => k.addr == ⟨0, 0, 0⟩)).length = 2 := by
  refine ⟨rfl, rfl, rfl⟩

/-- C10 counterexample: with the address triple (0,0,0) dispatched by
snapshot 0 and again by snapshot 1, BOTH snapshots' downloader passes run —
the second refresh re-resolves the representation against the later
snapshot, contradicting "only the manifest snapshot current at registration
time is ever fetched for that representation". -/
theorem later_snapshot_reresolved_cex :
    processRefreshes [] 0 0 [[⟨0, 0, 0⟩], [⟨0, 0, 0⟩]] =
      [(⟨0, 0, 0⟩, 0), (⟨0, 0, 0⟩, 1)]
    ∧ processRefreshes [] 0 0 [[⟨0, 0, 0⟩], [⟨0, 0, 0⟩]] ≠ [(⟨0, 0, 0⟩, 0)] := by
  refine ⟨rfl, by decide⟩

/-- C10 amended: because `RepAddr` defines neither `__eq__` nor `__hash__`,
the registry check compares object identity while every dispatch constructs
a fresh object, so the check never succeeds: every `ensure_downloader` call
registers a new dict entry and invokes the downloader's resolution against
the CURRENT snapshot, and across live refreshes EVERY snapshot that
dispatches a representation is resolved and fetched for it (the registration
no-op occurs only for an identical object, which the call sites never pass). -/
theorem registry_never_dedups :
    (∀ (reg : List PyRepAddr) (a : PyRepAddr),
        (∀ k ∈ reg, k.objId ≠ a.objId) →
        ensure_downloader reg a = (reg ++ [a], true))
    ∧ (∀ (reg : List PyRepAddr) (a : PyRepAddr),
        registryContains reg a = true →
        ensure_downloader reg a = (reg, false))
    ∧ (∀ ms : List (List RepAddr), processRefreshes [] 0 0 ms = allResolved 0 ms) := by
  refine ⟨?_, ?_, ?_⟩
  · intro reg a h
    unfold ensure_downloader
    have hfalse : registryContains reg a = false := by
      unfold registryContains
      rw [List.any_eq_false]
      intro k hk
      simpa using h k hk
    rw [hfalse]
    rfl
  · intro reg a h
    unfold ensure_downloader
    rw [h]
    rfl
  · intro ms
    refine processRefreshes_all ms [] 0 0 ?_
    intro k hk
    exact absurd hk (List.not_mem_nil k)

/-- Witness for `registry_never_dedups` at concrete objects: a second object
with the same triple but a fresh identity is registered and run again. -/
theorem registry_never_dedups_witness :
    (∀ k ∈ ([⟨0, ⟨0, 0, 0⟩⟩] : List PyRepAddr), k.objId ≠ 1)
    ∧ ensure_downloader [⟨0, ⟨0, 0, 0⟩⟩] ⟨1, ⟨0, 0, 0⟩⟩ =
        ([⟨0, ⟨0, 0, 0⟩⟩, ⟨1, ⟨0, 0, 0⟩⟩], true)
    ∧ registryContains [⟨0, ⟨0, 0, 0⟩⟩] ⟨0, ⟨0, 0, 0⟩⟩ = true
    ∧ ensure_downloader [⟨0, ⟨0, 0, 0⟩⟩] ⟨0, ⟨0, 0, 0⟩⟩ = ([⟨0, ⟨0, 0, 0⟩⟩], false) :=
  ⟨by decide,
    registry_never_dedups.1 [⟨0, ⟨0, 0, 0⟩⟩] ⟨1, ⟨0, 0, 0⟩⟩ (by decide),
    by decide,
    registry_never_dedups.2.1 [⟨0, ⟨0, 0, 0⟩⟩] ⟨0, ⟨0, 0, 0⟩⟩ (by decide)⟩
